import Mathlib

/-!
Verification of the penny-knowledge-core ontology-reconciliation engine and
fleet router against their natural-language specification.

The definitions below are a shallow embedding of the Python source:

* the name matcher (`tools/composite.py`: `_fuzzy_match`,
  `_find_matching_relation`, `_find_matching_type`), including a model of
  `difflib.SequenceMatcher.ratio` (Ratcliff–Obershelp) over exact rationals;
* the manifest / schema data model (`schemas/manifest.py`,
  `schemas/anytype.py`);
* the reconciliation engine (`tools/composite.py`: `ensure_ontology`),
  instrumented with an explicit event trace of the HTTP requests and warnings
  it issues, over a backend-state model following `docker/mock_heart.py` and
  the transport contract of spec section 6;
* the fleet router's retry/backoff policy (`router/fleet.py`:
  `FleetRouter.request` under tenacity's `retry_if_exception_type`,
  `stop_after_attempt(3)` and `wait_exponential(multiplier=0.5, min=0.5,
  max=10)`) and `FleetRouter.health_check`;
* the identity context (`router/context.py`).
-/

/-! ## Name matcher: difflib.SequenceMatcher model

`_fuzzy_match` lowers both names and returns
`SequenceMatcher(None, a, b).ratio()`.  `ratio` is `2*M/T` where `T` is the
total length of both strings and `M` the total size of the matching blocks
found by Ratcliff–Obershelp: recursively take the longest matching block
(earliest in `a`, then earliest in `b`, among the longest) and recurse on the
pieces to its left and to its right.  The model below covers the regime the
repository exercises (junk-free matching: `SequenceMatcher` is called with no
junk predicate, and autojunk only activates on strings of length at least
200). -/

/-- Length of the longest common prefix of two character lists. -/
def lcp : List Char → List Char → Nat
  | a :: as, b :: bs => if a = b then lcp as bs + 1 else 0
  | _, _ => 0

/-- All start-position pairs (i, j) scanned by find_longest_match, in its
scan order: i ascending over positions of the first string, j ascending over
positions of the second. -/
def matchCandidates (la lb : Nat) : List (Nat × Nat) :=
  (List.range la).flatMap (fun i => (List.range lb).map (fun j => (i, j)))

/-- One step of the longest-match scan: a candidate replaces the best block
found so far only when strictly longer, so the earliest longest block wins,
as difflib documents. -/
def bestStep (a b : List Char) (best : Nat × Nat × Nat) (c : Nat × Nat) :
    Nat × Nat × Nat :=
  let k := lcp (a.drop c.1) (b.drop c.2)
  if best.2.2 < k then (c.1, c.2, k) else best

/-- difflib's find_longest_match on whole strings (no junk): the triple
(i, j, size) of the longest matching block, earliest in the first string and
then in the second among the longest; (0, 0, 0) when nothing matches. -/
def find_longest_match (a b : List Char) : Nat × Nat × Nat :=
  (matchCandidates a.length b.length).foldl (bestStep a b) (0, 0, 0)

/-- Total size of all Ratcliff–Obershelp matching blocks: the longest block
plus the blocks of the pieces left and right of it.  The fuel bounds the
recursion depth; each recursive call strictly shortens the first list, so
(length of the first list + 1) is always enough. -/
def matching_blocks_total : Nat → List Char → List Char → Nat
  | 0, _, _ => 0
  | fuel + 1, a, b =>
    let m := find_longest_match a b
    if m.2.2 = 0 then 0
    else
      matching_blocks_total fuel (a.take m.1) (b.take m.2.1) + m.2.2 +
        matching_blocks_total fuel (a.drop (m.1 + m.2.2)) (b.drop (m.2.1 + m.2.2))

/-- SequenceMatcher.ratio: 2*M/T, and 1.0 when both strings are empty,
computed over exact rationals. -/
def sequence_matcher_ratio (a b : List Char) : ℚ :=
  if a.length + b.length = 0 then 1
  else 2 * (matching_blocks_total (a.length + 1) a b : ℚ) /
    ((a.length + b.length : Nat) : ℚ)

/-- composite.py FUZZY_MATCH_THRESHOLD = 0.85. -/
def FUZZY_MATCH_THRESHOLD : ℚ := 85 / 100

/-- Python str.lower(), character by character (ASCII case folding, which
is all the repository's profile names and schema names exercise).  Defined
over the character list so that concrete instances reduce in the kernel. -/
def py_lower (s : String) : String := String.mk (s.data.map Char.toLower)

/-- composite.py _fuzzy_match: SequenceMatcher(None, name1.lower(),
name2.lower()).ratio(). -/
def fuzzy_match (name1 name2 : String) : ℚ :=
  sequence_matcher_ratio (py_lower name1).data (py_lower name2).data

/-! ## Data model (schemas/anytype.py, schemas/manifest.py) -/

/-- schemas/anytype.py AnyTypeRelation, as _fetch_existing_relations builds
it from a backend response. -/
structure AnyTypeRelation where
  id : String
  key : String
  name : String
  format : String
  description : Option String
  deriving DecidableEq, Repr

/-- schemas/anytype.py AnyTypeType, as _fetch_existing_types builds it. -/
structure AnyTypeType where
  id : String
  key : String
  name : String
  description : Option String
  icon : Option String
  layout : String
  deriving DecidableEq, Repr

/-- schemas/manifest.py SelectOption. -/
structure SelectOption where
  name : String
  color : Option String
  deriving DecidableEq, Repr

/-- schemas/manifest.py RelationDefinition.  The key is the one pydantic's
model_post_init leaves in place (the declared key, or generated from the
name). -/
structure RelationDefinition where
  name : String
  key : String
  format : String
  description : Option String
  max_count : Nat
  object_types : List String
  select_options : List SelectOption
  deriving DecidableEq, Repr

/-- schemas/manifest.py TypeDefinition: relations are referenced by declared
name. -/
structure TypeDefinition where
  name : String
  key : String
  description : Option String
  icon : Option String
  layout : String
  relations : List String
  deriving DecidableEq, Repr

/-- schemas/manifest.py OntologyManifest. -/
structure OntologyManifest where
  name : String
  description : Option String
  version : String
  relations : List RelationDefinition
  types : List TypeDefinition
  deriving DecidableEq, Repr

/-- schemas/tools.py OntologyDiff. -/
structure OntologyDiff where
  missing_relations : List String
  missing_types : List String
  existing_relations : List String
  existing_types : List String
  deriving DecidableEq, Repr

/-- schemas/tools.py EnsureOntologyOutput. -/
structure EnsureOntologyOutput where
  created_relations : List String
  created_types : List String
  skipped_relations : List String
  skipped_types : List String
  diff : OntologyDiff
  dry_run : Bool
  message : String
  deriving DecidableEq, Repr

/-! ## Matching (composite.py lines 43-72) -/

/-- composite.py _find_matching_relation: the first existing relation whose
fuzzy ratio with the requested name meets the threshold, in the list's given
order. -/
def find_matching_relation (name : String)
    (existing_relations : List AnyTypeRelation) : Option AnyTypeRelation :=
  existing_relations.find?
    (fun rel => decide (FUZZY_MATCH_THRESHOLD ≤ fuzzy_match name rel.name))

/-- composite.py _find_matching_type. -/
def find_matching_type (name : String)
    (existing_types : List AnyTypeType) : Option AnyTypeType :=
  existing_types.find?
    (fun typ => decide (FUZZY_MATCH_THRESHOLD ≤ fuzzy_match name typ.name))

/-! ## Backend state and event trace

The reconciliation engine talks to one fleet backend over HTTP.  The backend
is modelled as the state its GET endpoints expose (following
docker/mock_heart.py and the transport contract of spec section 6): a list of
relations, a list of types, and a counter from which it mints fresh opaque
ids on POST.  Every request the engine issues, and every warning it records,
is captured in an event trace. -/

/-- One observable action of a reconciliation run: the two snapshot GETs, the
two creation POSTs, and the logger.warning recorded for an unresolved
relation reference. -/
inductive FleetEvent where
  | getRelations (space_id : String)
  | getTypes (space_id : String)
  | postRelation (space_id : String) (payload : RelationDefinition)
  | postType (space_id : String) (type_name : String) (relation_ids : List String)
  | warnRelationNotFound (type_name : String) (relation_name : String)
  deriving DecidableEq, Repr

/-- True exactly for the mutating (POST) requests. -/
def FleetEvent.isCreate : FleetEvent → Bool
  | .postRelation _ _ => true
  | .postType _ _ _ => true
  | _ => false

/-- True exactly for relation-creation requests. -/
def FleetEvent.isPostRelation : FleetEvent → Bool
  | .postRelation _ _ => true
  | _ => false

/-- True exactly for type-creation requests. -/
def FleetEvent.isPostType : FleetEvent → Bool
  | .postType _ _ _ => true
  | _ => false

/-- The backend state of one space, as its GET endpoints expose it
(mock_heart.py list_relations / list_types), plus the id counter. -/
structure Backend where
  relations : List AnyTypeRelation
  types : List AnyTypeType
  next_id : Nat
  deriving DecidableEq, Repr

/-- POST /v1/spaces/../relations (mock_heart.py create_relation, spec
section 6): the backend mints a fresh nonempty id, stores the relation with
the payload's fields, and echoes the id, which _create_relation returns. -/
def backendCreateRelation (B : Backend) (d : RelationDefinition) :
    String × Backend :=
  let rid := "rel_" ++ toString B.next_id
  (rid,
    { B with
        relations := B.relations ++
          [{ id := rid, key := d.key, name := d.name, format := d.format,
             description := d.description }],
        next_id := B.next_id + 1 })

/-- POST /v1/spaces/../types (mock_heart.py create_type): fresh nonempty id,
the type is stored with the payload's fields.  The recommendedRelations of
the payload are recorded in the postType event; _fetch_existing_types does
not read them back. -/
def backendCreateType (B : Backend) (d : TypeDefinition) : String × Backend :=
  let tid := "type_" ++ toString B.next_id
  (tid,
    { B with
        types := B.types ++
          [{ id := tid, key := d.key, name := d.name,
             description := d.description, icon := d.icon, layout := d.layout }],
        next_id := B.next_id + 1 })

/-! ## Reconciliation engine (composite.py ensure_ontology, lines 181-316) -/

/-- Step 2 of ensure_ontology, the missing side: manifest relations with no
fuzzy match among the existing ones, in manifest order. -/
def missing_relation_defs (manifest_relations : List RelationDefinition)
    (existing_relations : List AnyTypeRelation) : List RelationDefinition :=
  manifest_relations.filter
    (fun d => (find_matching_relation d.name existing_relations).isNone)

/-- Step 2 of ensure_ontology, the matched side: names of manifest relations
that fuzzy-matched an existing relation, in manifest order. -/
def skipped_relation_names (manifest_relations : List RelationDefinition)
    (existing_relations : List AnyTypeRelation) : List String :=
  (manifest_relations.filter
    (fun d => (find_matching_relation d.name existing_relations).isSome)).map
    (fun d => d.name)

/-- The relation_name_to_id dict after step 2: one write per matched manifest
relation, keyed by the lowercased declared name.  The dict is an association
list where the most recent write stands first, so List.lookup is Python's
dict.get. -/
def relation_map_after_diff (manifest_relations : List RelationDefinition)
    (existing_relations : List AnyTypeRelation) : List (String × String) :=
  manifest_relations.foldl
    (fun mp d =>
      match find_matching_relation d.name existing_relations with
      | some m => (py_lower d.name, m.id) :: mp
      | none => mp)
    []

/-- Step 3 of ensure_ontology, the missing side, for types. -/
def missing_type_defs (manifest_types : List TypeDefinition)
    (existing_types : List AnyTypeType) : List TypeDefinition :=
  manifest_types.filter
    (fun t => (find_matching_type t.name existing_types).isNone)

/-- Step 3 of ensure_ontology, the matched side, for types. -/
def skipped_type_names (manifest_types : List TypeDefinition)
    (existing_types : List AnyTypeType) : List String :=
  (manifest_types.filter
    (fun t => (find_matching_type t.name existing_types).isSome)).map
    (fun t => t.name)

/-- Step 4 of ensure_ontology: create each missing relation in order, record
its backend id in the dict under the lowercased declared name, and append the
declared name to created_relations.  Returns the backend after the creations,
the updated dict, the created names and the POST events, all in order. -/
def create_missing_relations (space_id : String) :
    Backend → List (String × String) → List RelationDefinition →
      Backend × List (String × String) × List String × List FleetEvent
  | B, mp, [] => (B, mp, [], [])
  | B, mp, d :: rest =>
    let created := backendCreateRelation B d
    let out := create_missing_relations space_id created.2
      ((py_lower d.name, created.1) :: mp) rest
    (out.1, out.2.1, d.name :: out.2.2.1,
      FleetEvent.postRelation space_id d :: out.2.2.2)

/-- The dict.get plus Python truthiness test of ensure_ontology lines
285-287: the id bound to the lowercased reference name, unless it is absent
or the empty string (both falsy). -/
def truthy_lookup (relation_name_to_id : List (String × String))
    (rel_name : String) : Option String :=
  match List.lookup (py_lower rel_name) relation_name_to_id with
  | some rid => if rid = "" then none else some rid
  | none => none

/-- Step 5's reference resolution for one type (ensure_ontology lines
283-293): each referenced relation name resolves through the dict; a falsy
result is dropped and a warning recorded, in reference order. -/
def resolve_relation_ids (relation_name_to_id : List (String × String))
    (type_name : String) : List String → List String × List FleetEvent
  | [] => ([], [])
  | rel_name :: rest =>
    let out := resolve_relation_ids relation_name_to_id type_name rest
    match truthy_lookup relation_name_to_id rel_name with
    | some rid => (rid :: out.1, out.2)
    | none =>
      (out.1, FleetEvent.warnRelationNotFound type_name rel_name :: out.2)

/-- Step 5 of ensure_ontology: create each missing type in order with its
resolved relation ids; warnings precede each type's POST.  Returns the final
backend, the created names and the events. -/
def create_missing_types (space_id : String)
    (relation_name_to_id : List (String × String)) :
    Backend → List TypeDefinition → Backend × List String × List FleetEvent
  | B, [] => (B, [], [])
  | B, t :: rest =>
    let resolved := resolve_relation_ids relation_name_to_id t.name t.relations
    let created := backendCreateType B t
    let out := create_missing_types space_id relation_name_to_id created.2 rest
    (out.1, t.name :: out.2.1,
      resolved.2 ++ (FleetEvent.postType space_id t.name resolved.1 :: out.2.2))

/-- Result of one ensure_ontology run: the tool output, the backend state it
leaves behind, and the trace of requests and warnings it issued. -/
structure EnsureRunResult where
  output : EnsureOntologyOutput
  backend : Backend
  events : List FleetEvent
  deriving DecidableEq, Repr

/-- composite.py ensure_ontology: fetch the snapshot, diff relations and
types against the manifest by fuzzy name match, then either report the diff
(dry run) or create missing relations first and missing types second,
sequentially. -/
def ensure_ontology (manifest : OntologyManifest) (space_id : String)
    (dry_run : Bool) (B : Backend) : EnsureRunResult :=
  let existing_relations := B.relations
  let existing_types := B.types
  let missing_relations := missing_relation_defs manifest.relations existing_relations
  let skipped_relations := skipped_relation_names manifest.relations existing_relations
  let relation_name_to_id := relation_map_after_diff manifest.relations existing_relations
  let missing_types := missing_type_defs manifest.types existing_types
  let skipped_types := skipped_type_names manifest.types existing_types
  let diff : OntologyDiff :=
    { missing_relations := missing_relations.map (fun r => r.name),
      missing_types := missing_types.map (fun t => t.name),
      existing_relations := skipped_relations,
      existing_types := skipped_types }
  if dry_run then
    { output :=
        { created_relations := [], created_types := [],
          skipped_relations := skipped_relations, skipped_types := skipped_types,
          diff := diff, dry_run := true,
          message := "Dry run: Would create " ++ toString missing_relations.length ++
            " relations and " ++ toString missing_types.length ++ " types" },
      backend := B,
      events := [FleetEvent.getRelations space_id, FleetEvent.getTypes space_id] }
  else
    let relPhase := create_missing_relations space_id B relation_name_to_id missing_relations
    let typePhase := create_missing_types space_id relPhase.2.1 relPhase.1 missing_types
    { output :=
        { created_relations := relPhase.2.2.1, created_types := typePhase.2.1,
          skipped_relations := skipped_relations, skipped_types := skipped_types,
          diff := diff, dry_run := false,
          message := "Created " ++ toString relPhase.2.2.1.length ++
            " relations and " ++ toString typePhase.2.1.length ++ " types" },
      backend := typePhase.1,
      events := FleetEvent.getRelations space_id :: FleetEvent.getTypes space_id ::
        (relPhase.2.2.2 ++ typePhase.2.2) }

/-- The relation_name_to_id dict as the type-creation phase of a non-dry run
sees it: the diff-phase writes plus one write per created relation. -/
def final_relation_map (manifest : OntologyManifest) (space_id : String)
    (B : Backend) : List (String × String) :=
  (create_missing_relations space_id B
    (relation_map_after_diff manifest.relations B.relations)
    (missing_relation_defs manifest.relations B.relations)).2.1

/-! ## Fleet router retry policy (router/fleet.py lines 95-142)

FleetRouter.request is wrapped in tenacity's
retry(retry=retry_if_exception_type((httpx.ConnectError,
httpx.TimeoutException)), stop=stop_after_attempt(3),
wait=wait_exponential(multiplier=0.5, min=0.5, max=10), reraise=True).
One attempt performs the HTTP exchange and then raise_for_status.  The
outcome of each attempt is an oracle indexed by tenacity's 1-based attempt
number; an outcome is either a received response with its status code or one
of the transport exceptions httpx can raise. -/

/-- What one underlying httpx exchange can yield: a response, a
connection-establishment failure, a timeout, or another transport error. -/
inductive AttemptOutcome where
  | response (status_code : Nat)
  | connectError
  | timeoutException
  | otherException
  deriving DecidableEq, Repr

/-- What one attempt of FleetRouter.request can raise, after
response.raise_for_status: a non-success response becomes HTTPStatusError,
the transport exceptions pass through. -/
inductive RequestError where
  | httpStatusError (status_code : Nat)
  | connectError
  | timeoutException
  | otherException
  deriving DecidableEq, Repr

/-- One attempt of the wrapped body: client.request followed by
raise_for_status, which raises for every non-2xx status. -/
def attempt_once (o : AttemptOutcome) : Except RequestError Nat :=
  match o with
  | AttemptOutcome.response s =>
    if 200 ≤ s ∧ s < 300 then Except.ok s
    else Except.error (RequestError.httpStatusError s)
  | AttemptOutcome.connectError => Except.error RequestError.connectError
  | AttemptOutcome.timeoutException => Except.error RequestError.timeoutException
  | AttemptOutcome.otherException => Except.error RequestError.otherException

/-- tenacity's retry_if_exception_type((httpx.ConnectError,
httpx.TimeoutException)). -/
def is_retryable : RequestError → Prop
  | RequestError.connectError => True
  | RequestError.timeoutException => True
  | _ => False

instance (e : RequestError) : Decidable (is_retryable e) := by
  cases e <;> simp [is_retryable] <;> infer_instance

/-- tenacity wait_exponential: clamp(multiplier * 2^(attempt_number - 1))
between min and max, in seconds. -/
def wait_exponential_tenacity (multiplier mn mx : ℚ) (attempt_number : Nat) : ℚ :=
  max (max 0 mn) (min (multiplier * 2 ^ (attempt_number - 1)) mx)

/-- The schedule of FleetRouter.request: wait_exponential(multiplier=0.5,
min=0.5, max=10), evaluated at the attempt number that just failed. -/
def fleet_wait (attempt_number : Nat) : ℚ :=
  wait_exponential_tenacity (1 / 2) (1 / 2) 10 attempt_number

/-- tenacity's loop from a given 1-based attempt number: run the attempt; on
success return; on an exception, retry (after the scheduled wait) only when
the exception is retryable and stop_after_attempt(3) has not been reached,
else re-raise that exception (reraise=True).  Returns the result, the number
of the last attempt made, and the waits taken, in order.  The fuel only
bounds the recursion; the stop condition keeps the attempt number at 3 or
below, so fuel 3 from attempt 1 is never exhausted. -/
def retry_loop (oracle : Nat → AttemptOutcome) :
    Nat → Nat → Except RequestError Nat × Nat × List ℚ
  | 0, attempt_number => (attempt_once (oracle attempt_number), attempt_number, [])
  | fuel + 1, attempt_number =>
    match attempt_once (oracle attempt_number) with
    | Except.ok s => (Except.ok s, attempt_number, [])
    | Except.error e =>
      if is_retryable e ∧ attempt_number < 3 then
        let out := retry_loop oracle fuel (attempt_number + 1)
        (out.1, out.2.1, fleet_wait attempt_number :: out.2.2)
      else (Except.error e, attempt_number, [])

/-- FleetRouter.request's retry behaviour: tenacity starts at attempt 1. -/
def fleet_request (oracle : Nat → AttemptOutcome) :
    Except RequestError Nat × Nat × List ℚ :=
  retry_loop oracle 3 1

/-! ## Fleet router health check (router/fleet.py lines 180-210) -/

/-- Outcome of the GET /v1/health issued for one profile: a response body
(none models empty content) or a raised exception's message. -/
inductive HealthOutcome where
  | success (content : Option String)
  | failure (error_message : String)
  deriving DecidableEq, Repr

/-- One profile's entry in the health_check result. -/
inductive HealthEntry where
  | healthy (response_body : String)
  | unhealthy (error_message : String)
  deriving DecidableEq, Repr

/-- The try/except body of health_check for one profile: a successful GET
yields status healthy with response.json() (an empty body yields the empty
dict), any exception yields status unhealthy with the error string. -/
def health_entry : HealthOutcome → HealthEntry
  | HealthOutcome.success (some body) => HealthEntry.healthy body
  | HealthOutcome.success none => HealthEntry.healthy "\x7b\x7d"
  | HealthOutcome.failure msg => HealthEntry.unhealthy msg

/-- FleetRouter.health_check: with a profile name, check only that profile
(lowercased); otherwise check every configured profile, each independently
through its own try/except.  clients lists the configured profile names in
dict order; the oracle gives each profile's GET outcome. -/
def health_check (clients : List String) (profile_name : Option String)
    (outcome : String → HealthOutcome) : List (String × HealthEntry) :=
  let profiles := match profile_name with
    | some p => [py_lower p]
    | none => clients
  profiles.map (fun n => (n, health_entry (outcome n)))

/-! ## Identity context (router/context.py) -/

/-- router/context.py ProfileContext. -/
structure ProfileContext where
  profile_name : String
  session_id : Option String
  deriving DecidableEq, Repr

/-- The fixed profile set of set_current_profile. -/
def valid_profiles : List String := ["personal", "work", "research"]

/-- The slice of Settings that get_current_profile reads. -/
structure SettingsModel where
  default_profile : String
  deriving DecidableEq, Repr

/-- router/context.py get_current_profile: the stored context, or a context
on the configured default profile when none has been set. -/
def get_current_profile (ctx : Option ProfileContext)
    (settings : SettingsModel) : ProfileContext :=
  match ctx with
  | none => { profile_name := settings.default_profile, session_id := none }
  | some c => c

/-- router/context.py set_current_profile: lowercase the name, reject it
(ValueError, state untouched) when outside the fixed profile set, else
install and return the new context.  The pair is (raised-or-returned value,
contextvar state after the call). -/
def set_current_profile (profile_name : String) (session_id : Option String)
    (ctx : Option ProfileContext) :
    Except String ProfileContext × Option ProfileContext :=
  let name := py_lower profile_name
  if name ∉ valid_profiles then
    (Except.error ("Invalid profile: " ++ profile_name), ctx)
  else
    let new_ctx : ProfileContext := { profile_name := name, session_id := session_id }
    (Except.ok new_ctx, some new_ctx)

/-! ## Concrete demo inputs (spec section 8 example scenarios) -/

/-- A concrete declared relation (spec section 8, scenario 1). -/
def demoEmailRelation : RelationDefinition :=
  { name := "Email", key := "email", format := "email", description := none,
    max_count := 0, object_types := [], select_options := [] }

/-- A concrete declared type referencing the declared relation by name. -/
def demoInvoiceType : TypeDefinition :=
  { name := "Invoice", key := "invoice", description := none, icon := none,
    layout := "basic", relations := ["Email"] }

/-- A concrete declared type whose reference resolves nowhere (spec
section 8, scenario 4). -/
def demoAmountType : TypeDefinition :=
  { name := "Invoice", key := "invoice", description := none, icon := none,
    layout := "basic", relations := ["Amount"] }

/-- A concrete manifest with one relation and one type. -/
def demoManifest : OntologyManifest :=
  { name := "demo", description := none, version := "1.0.0",
    relations := [demoEmailRelation], types := [demoInvoiceType] }

/-- A concrete manifest declaring no relation and one type with an
unresolvable reference. -/
def demoManifestUnresolved : OntologyManifest :=
  { name := "demo", description := none, version := "1.0.0",
    relations := [], types := [demoAmountType] }

/-- An empty backend snapshot. -/
def emptyBackend : Backend := { relations := [], types := [], next_id := 0 }

/-! ## Lemmas about the name matcher -/

lemma lcp_self (a : List Char) : lcp a a = a.length := by
  induction a with
  | nil => rfl
  | cons x xs ih => simp [lcp, ih]

lemma lcp_le_left (a b : List Char) : lcp a b ≤ a.length := by
  induction a generalizing b with
  | nil => cases b <;> simp [lcp]
  | cons x xs ih =>
    cases b with
    | nil => simp [lcp]
    | cons y ys =>
      by_cases h : x = y
      · simpa [lcp, h] using Nat.succ_le_succ (ih ys)
      · simp [lcp, h]

lemma foldl_bestStep_fixed (a b : List Char) (l : List (Nat × Nat))
    (best : Nat × Nat × Nat)
    (h : ∀ c ∈ l, lcp (a.drop c.1) (b.drop c.2) ≤ best.2.2) :
    l.foldl (bestStep a b) best = best := by
  induction l with
  | nil => rfl
  | cons c rest ih =>
    have hc : lcp (a.drop c.1) (b.drop c.2) ≤ best.2.2 := h c (by simp)
    have hstep : bestStep a b best c = best := by
      simp [bestStep, Nat.not_lt.mpr hc]
    rw [List.foldl_cons, hstep]
    exact ih (fun c hmem => h c (by simp [hmem]))

lemma matchCandidates_succ_head (n : Nat) :
    ∃ rest, matchCandidates (n + 1) (n + 1) = (0, 0) :: rest := by
  refine ⟨((List.range n).map Nat.succ).map (fun j => ((0 : Nat), j)) ++
    ((List.range n).map Nat.succ).flatMap
      (fun i => (List.range (n + 1)).map (fun j => (i, j))), ?_⟩
  simp only [matchCandidates, List.range_succ_eq_map, List.flatMap_cons,
    List.map_cons, List.cons_append]

lemma find_longest_match_self (a : List Char) :
    find_longest_match a a = (0, 0, a.length) := by
  cases a with
  | nil => rfl
  | cons x xs =>
    obtain ⟨rest, hr⟩ := matchCandidates_succ_head xs.length
    have hlen : (x :: xs).length = xs.length + 1 := rfl
    unfold find_longest_match
    rw [hlen, hr, List.foldl_cons]
    have hfirst : bestStep (x :: xs) (x :: xs) (0, 0, 0) (0, 0) =
        (0, 0, (x :: xs).length) := by
      simp [bestStep, lcp_self]
    rw [hfirst]
    refine foldl_bestStep_fixed _ _ _ _ (fun c _ => ?_)
    calc lcp ((x :: xs).drop c.1) ((x :: xs).drop c.2)
        ≤ ((x :: xs).drop c.1).length := lcp_le_left _ _
      _ ≤ (x :: xs).length := by simp

lemma matching_blocks_total_nil (fuel : Nat) :
    matching_blocks_total fuel [] [] = 0 := by
  cases fuel with
  | zero => rfl
  | succ f => rfl

lemma matching_blocks_total_self (fuel : Nat) (a : List Char) (h : 1 ≤ fuel) :
    matching_blocks_total fuel a a = a.length := by
  cases fuel with
  | zero => omega
  | succ f =>
    simp only [matching_blocks_total, find_longest_match_self]
    by_cases hz : a.length = 0
    · simp [hz]
    · simp [hz, matching_blocks_total_nil, List.drop_length]

lemma sequence_matcher_ratio_self (a : List Char) :
    sequence_matcher_ratio a a = 1 := by
  unfold sequence_matcher_ratio
  by_cases h : a.length + a.length = 0
  · simp [h]
  · have hn : a.length ≠ 0 := by omega
    have hq : ((a.length + a.length : Nat) : ℚ) ≠ 0 := by
      exact_mod_cast h
    rw [if_neg h, matching_blocks_total_self _ _ (by omega),
      div_eq_one_iff_eq hq]
    push_cast
    ring

lemma fuzzy_match_self (s : String) : fuzzy_match s s = 1 :=
  sequence_matcher_ratio_self _

lemma threshold_le_one : FUZZY_MATCH_THRESHOLD ≤ 1 := by
  norm_num [FUZZY_MATCH_THRESHOLD]

/-! ## Lemmas about the reconciliation engine -/

lemma find_matching_relation_isSome_iff (name : String)
    (l : List AnyTypeRelation) :
    (find_matching_relation name l).isSome = true ↔
      ∃ r ∈ l, FUZZY_MATCH_THRESHOLD ≤ fuzzy_match name r.name := by
  simp [find_matching_relation, List.find?_isSome]

lemma find_matching_type_isSome_iff (name : String) (l : List AnyTypeType) :
    (find_matching_type name l).isSome = true ↔
      ∃ t ∈ l, FUZZY_MATCH_THRESHOLD ≤ fuzzy_match name t.name := by
  simp [find_matching_type, List.find?_isSome]

lemma create_missing_relations_rel_mono (space_id : String)
    (l : List RelationDefinition) :
    ∀ (B : Backend) (mp : List (String × String)) (r : AnyTypeRelation),
      r ∈ B.relations →
      r ∈ (create_missing_relations space_id B mp l).1.relations := by
  induction l with
  | nil => intro B mp r h; simpa [create_missing_relations] using h
  | cons d rest ih =>
    intro B mp r h
    simp only [create_missing_relations]
    exact ih _ _ r (by simp [backendCreateRelation, h])

lemma create_missing_relations_rel_new (space_id : String)
    (l : List RelationDefinition) :
    ∀ (B : Backend) (mp : List (String × String)) (d : RelationDefinition),
      d ∈ l →
      ∃ r ∈ (create_missing_relations space_id B mp l).1.relations,
        r.name = d.name := by
  induction l with
  | nil => intro B mp d h; simp at h
  | cons d0 rest ih =>
    intro B mp d h
    rcases List.mem_cons.1 h with h0 | h0
    · subst h0
      simp only [create_missing_relations]
      have hmem : ({ id := "rel_" ++ toString B.next_id, key := d.key,
                     name := d.name, format := d.format,
                     description := d.description } : AnyTypeRelation) ∈
          (backendCreateRelation B d).2.relations := by
        simp [backendCreateRelation]
      exact ⟨_, create_missing_relations_rel_mono space_id rest _ _ _ hmem, rfl⟩
    · simp only [create_missing_relations]
      exact ih _ _ d h0

lemma create_missing_relations_types_eq (space_id : String)
    (l : List RelationDefinition) :
    ∀ (B : Backend) (mp : List (String × String)),
      (create_missing_relations space_id B mp l).1.types = B.types := by
  induction l with
  | nil => intro B mp; rfl
  | cons d rest ih =>
    intro B mp
    simp only [create_missing_relations]
    rw [ih]
    rfl

lemma create_missing_relations_created_names (space_id : String)
    (l : List RelationDefinition) :
    ∀ (B : Backend) (mp : List (String × String)),
      (create_missing_relations space_id B mp l).2.2.1 =
        l.map (fun d => d.name) := by
  induction l with
  | nil => intro B mp; rfl
  | cons d rest ih =>
    intro B mp
    simp only [create_missing_relations, List.map_cons]
    rw [ih]

lemma create_missing_types_rels_eq (space_id : String)
    (mp : List (String × String)) (l : List TypeDefinition) :
    ∀ B : Backend,
      (create_missing_types space_id mp B l).1.relations = B.relations := by
  induction l with
  | nil => intro B; rfl
  | cons t rest ih =>
    intro B
    simp only [create_missing_types]
    rw [ih]
    rfl

lemma create_missing_types_types_mono (space_id : String)
    (mp : List (String × String)) (l : List TypeDefinition) :
    ∀ (B : Backend) (r : AnyTypeType), r ∈ B.types →
      r ∈ (create_missing_types space_id mp B l).1.types := by
  induction l with
  | nil => intro B r h; simpa [create_missing_types] using h
  | cons t rest ih =>
    intro B r h
    simp only [create_missing_types]
    exact ih _ r (by simp [backendCreateType, h])

lemma create_missing_types_new (space_id : String)
    (mp : List (String × String)) (l : List TypeDefinition) :
    ∀ (B : Backend) (t : TypeDefinition), t ∈ l →
      ∃ r ∈ (create_missing_types space_id mp B l).1.types,
        r.name = t.name := by
  induction l with
  | nil => intro B t h; simp at h
  | cons t0 rest ih =>
    intro B t h
    rcases List.mem_cons.1 h with h0 | h0
    · subst h0
      simp only [create_missing_types]
      have hmem : ({ id := "type_" ++ toString B.next_id, key := t.key,
                     name := t.name, description := t.description,
                     icon := t.icon, layout := t.layout } : AnyTypeType) ∈
          (backendCreateType B t).2.types := by
        simp [backendCreateType]
      exact ⟨_, create_missing_types_types_mono space_id mp rest _ _ hmem, rfl⟩
    · simp only [create_missing_types]
      exact ih _ t h0

lemma create_missing_types_created_names (space_id : String)
    (mp : List (String × String)) (l : List TypeDefinition) :
    ∀ B : Backend,
      (create_missing_types space_id mp B l).2.1 = l.map (fun t => t.name) := by
  induction l with
  | nil => intro B; rfl
  | cons t rest ih =>
    intro B
    simp only [create_missing_types, List.map_cons]
    rw [ih]

/-! ## Lemmas about the relation_name_to_id dict -/

lemma lookup_eq_none_of_keys (m : List (String × String)) :
    ∀ k : String, (∀ kv ∈ m, kv.1 ≠ k) → List.lookup k m = none := by
  induction m with
  | nil => intro k _; rfl
  | cons kv rest ih =>
    intro k h
    obtain ⟨a, b⟩ := kv
    have hk : a ≠ k := h (a, b) (by simp)
    have hbeq : (k == a) = false := by
      simp only [beq_eq_false_iff_ne, ne_eq]
      exact fun he => hk he.symm
    simp only [List.lookup, hbeq]
    exact ih k (fun kv2 hmem => h kv2 (List.mem_cons_of_mem _ hmem))

lemma lookup_mem (m : List (String × String)) :
    ∀ k v : String, List.lookup k m = some v → (k, v) ∈ m := by
  induction m with
  | nil => intro k v h; simp [List.lookup] at h
  | cons kv rest ih =>
    intro k v h
    obtain ⟨a, b⟩ := kv
    by_cases hk : k = a
    · subst hk
      simp only [List.lookup, beq_self_eq_true] at h
      injection h with h2
      subst h2
      exact List.mem_cons_self _ _
    · have hbeq : (k == a) = false := by simp [beq_eq_false_iff_ne, hk]
      simp only [List.lookup, hbeq] at h
      exact List.mem_cons_of_mem _ (ih k v h)

lemma lookup_isSome_of_mem (m : List (String × String)) :
    ∀ k v : String, (k, v) ∈ m → ∃ w, List.lookup k m = some w := by
  induction m with
  | nil => intro k v h; simp at h
  | cons kv rest ih =>
    intro k v h
    obtain ⟨a, b⟩ := kv
    by_cases hk : k = a
    · refine ⟨b, ?_⟩
      have hbeq : (k == a) = true := by simp [beq_iff_eq, hk]
      simp [List.lookup, hbeq]
    · have hbeq : (k == a) = false := by simp [beq_eq_false_iff_ne, hk]
      rcases List.mem_cons.1 h with h0 | h0
      · exact absurd (congrArg Prod.fst h0) hk
      · simpa [List.lookup, hbeq] using ih k v h0

lemma relation_map_after_diff_aux (e : List AnyTypeRelation) :
    ∀ (rels : List RelationDefinition) (mp : List (String × String))
      (kv : String × String),
      kv ∈ rels.foldl
        (fun mp d =>
          match find_matching_relation d.name e with
          | some m => (py_lower d.name, m.id) :: mp
          | none => mp) mp →
      kv ∈ mp ∨ ∃ d ∈ rels, ∃ m, find_matching_relation d.name e = some m ∧
        kv = (py_lower d.name, m.id) := by
  intro rels
  induction rels with
  | nil => intro mp kv h; exact Or.inl h
  | cons d rest ih =>
    intro mp kv h
    rw [List.foldl_cons] at h
    rcases hf : find_matching_relation d.name e with _ | m
    · rw [hf] at h
      rcases ih mp kv h with h0 | ⟨d0, hd0, m0, hm0, hkv⟩
      · exact Or.inl h0
      · exact Or.inr ⟨d0, by simp [hd0], m0, hm0, hkv⟩
    · rw [hf] at h
      rcases ih _ kv h with h0 | ⟨d0, hd0, m0, hm0, hkv⟩
      · rcases List.mem_cons.1 h0 with h1 | h1
        · exact Or.inr ⟨d, by simp, m, hf, h1⟩
        · exact Or.inl h1
      · exact Or.inr ⟨d0, by simp [hd0], m0, hm0, hkv⟩

lemma relation_map_after_diff_mem (e : List AnyTypeRelation)
    (rels : List RelationDefinition) (kv : String × String)
    (h : kv ∈ relation_map_after_diff rels e) :
    ∃ d ∈ rels, ∃ m, find_matching_relation d.name e = some m ∧
      kv = (py_lower d.name, m.id) := by
  rcases relation_map_after_diff_aux e rels [] kv h with h0 | h0
  · simp at h0
  · exact h0

lemma relation_map_after_diff_foldl_mono (e : List AnyTypeRelation) :
    ∀ (rels : List RelationDefinition) (mp : List (String × String))
      (kv : String × String), kv ∈ mp →
      kv ∈ rels.foldl
        (fun mp d =>
          match find_matching_relation d.name e with
          | some m => (py_lower d.name, m.id) :: mp
          | none => mp) mp := by
  intro rels
  induction rels with
  | nil => intro mp kv h; exact h
  | cons d rest ih =>
    intro mp kv h
    rw [List.foldl_cons]
    rcases hf : find_matching_relation d.name e with _ | m
    · exact ih mp kv h
    · exact ih _ kv (by simp [h])

lemma relation_map_after_diff_foldl_key (e : List AnyTypeRelation) :
    ∀ (rels : List RelationDefinition) (mp : List (String × String))
      (d : RelationDefinition) (m : AnyTypeRelation),
      d ∈ rels → find_matching_relation d.name e = some m →
      (py_lower d.name, m.id) ∈ rels.foldl
        (fun mp d =>
          match find_matching_relation d.name e with
          | some m => (py_lower d.name, m.id) :: mp
          | none => mp) mp := by
  intro rels
  induction rels with
  | nil => intro mp d m hd _; simp at hd
  | cons d0 rest ih =>
    intro mp d m hd hm
    rw [List.foldl_cons]
    rcases List.mem_cons.1 hd with h0 | h0
    · subst h0
      rw [hm]
      exact relation_map_after_diff_foldl_mono e rest _ _ (by simp)
    · exact ih _ d m h0 hm

lemma relation_map_after_diff_key (e : List AnyTypeRelation)
    (rels : List RelationDefinition) (d : RelationDefinition)
    (m : AnyTypeRelation) (hd : d ∈ rels)
    (hm : find_matching_relation d.name e = some m) :
    (py_lower d.name, m.id) ∈ relation_map_after_diff rels e :=
  relation_map_after_diff_foldl_key e rels [] d m hd hm

lemma rel_id_ne_empty (n : Nat) : "rel_" ++ toString n ≠ "" := by
  intro hc
  have hlen : ("rel_" ++ toString n).length = 0 := by rw [hc]; rfl
  rw [String.length_append] at hlen
  have h4 : "rel_".length = 4 := rfl
  omega

lemma create_missing_relations_map_mono (space_id : String)
    (l : List RelationDefinition) :
    ∀ (B : Backend) (mp : List (String × String)) (kv : String × String),
      kv ∈ mp → kv ∈ (create_missing_relations space_id B mp l).2.1 := by
  induction l with
  | nil => intro B mp kv h; simpa [create_missing_relations] using h
  | cons d rest ih =>
    intro B mp kv h
    simp only [create_missing_relations]
    exact ih _ _ kv (by simp [h])

lemma create_missing_relations_map_mem (space_id : String)
    (l : List RelationDefinition) :
    ∀ (B : Backend) (mp : List (String × String)) (kv : String × String),
      kv ∈ (create_missing_relations space_id B mp l).2.1 →
      kv ∈ mp ∨ ∃ d ∈ l, kv.1 = py_lower d.name ∧ kv.2 ≠ "" := by
  induction l with
  | nil => intro B mp kv h; exact Or.inl (by simpa [create_missing_relations] using h)
  | cons d rest ih =>
    intro B mp kv h
    simp only [create_missing_relations] at h
    rcases ih _ _ kv h with h0 | ⟨d0, hd0, hkey, hval⟩
    · rcases List.mem_cons.1 h0 with h1 | h1
      · refine Or.inr ⟨d, by simp, ?_, ?_⟩
        · rw [h1]
        · rw [h1]
          exact rel_id_ne_empty B.next_id
      · exact Or.inl h1
    · exact Or.inr ⟨d0, by simp [hd0], hkey, hval⟩

lemma create_missing_relations_map_key (space_id : String)
    (l : List RelationDefinition) :
    ∀ (B : Backend) (mp : List (String × String)) (d : RelationDefinition),
      d ∈ l →
      ∃ v, (py_lower d.name, v) ∈ (create_missing_relations space_id B mp l).2.1 ∧
        v ≠ "" := by
  induction l with
  | nil => intro B mp d h; simp at h
  | cons d0 rest ih =>
    intro B mp d h
    rcases List.mem_cons.1 h with h0 | h0
    · subst h0
      refine ⟨"rel_" ++ toString B.next_id, ?_, ?_⟩
      · simp only [create_missing_relations]
        exact create_missing_relations_map_mono space_id rest _ _ _
          (by simp [backendCreateRelation])
      · exact rel_id_ne_empty B.next_id
    · simp only [create_missing_relations]
      exact ih _ _ d h0

/-! ## Lemmas about reference resolution and events -/

lemma resolve_relation_ids_fst (mp : List (String × String))
    (type_name : String) (names : List String) :
    (resolve_relation_ids mp type_name names).1 =
      names.filterMap (truthy_lookup mp) := by
  induction names with
  | nil => rfl
  | cons rn rest ih =>
    simp only [resolve_relation_ids, List.filterMap_cons]
    rcases ht : truthy_lookup mp rn with _ | rid <;> simp [ht, ih]

lemma resolve_relation_ids_warn (mp : List (String × String))
    (type_name : String) (names : List String) (rn : String)
    (hmem : rn ∈ names) (hnone : truthy_lookup mp rn = none) :
    FleetEvent.warnRelationNotFound type_name rn ∈
      (resolve_relation_ids mp type_name names).2 := by
  induction names with
  | nil => simp at hmem
  | cons rn0 rest ih =>
    rcases List.mem_cons.1 hmem with h0 | h0
    · subst h0
      simp only [resolve_relation_ids, hnone]
      simp
    · simp only [resolve_relation_ids]
      rcases ht : truthy_lookup mp rn0 with _ | rid
      · simp [ih h0]
      · simp [ih h0]

lemma resolve_relation_ids_events_warn (mp : List (String × String))
    (type_name : String) (names : List String) :
    ∀ e ∈ (resolve_relation_ids mp type_name names).2,
      ∃ rn, e = FleetEvent.warnRelationNotFound type_name rn := by
  induction names with
  | nil => intro e h; simp [resolve_relation_ids] at h
  | cons rn0 rest ih =>
    intro e h
    simp only [resolve_relation_ids] at h
    rcases ht : truthy_lookup mp rn0 with _ | rid
    · rw [ht] at h
      simp only [List.mem_cons] at h
      rcases h with h0 | h0
      · exact ⟨rn0, h0⟩
      · exact ih e h0
    · rw [ht] at h
      exact ih e h

lemma create_missing_relations_events (space_id : String)
    (l : List RelationDefinition) :
    ∀ (B : Backend) (mp : List (String × String)),
      ∀ e ∈ (create_missing_relations space_id B mp l).2.2.2,
        ∃ d, e = FleetEvent.postRelation space_id d := by
  induction l with
  | nil => intro B mp e h; simp [create_missing_relations] at h
  | cons d rest ih =>
    intro B mp e h
    simp only [create_missing_relations, List.mem_cons] at h
    rcases h with h0 | h0
    · exact ⟨d, h0⟩
    · exact ih _ _ e h0

lemma create_missing_types_events (space_id : String)
    (mp : List (String × String)) (l : List TypeDefinition) :
    ∀ (B : Backend), ∀ e ∈ (create_missing_types space_id mp B l).2.2,
      (∃ t ids, e = FleetEvent.postType space_id t ids) ∨
        (∃ t rn, e = FleetEvent.warnRelationNotFound t rn) := by
  induction l with
  | nil => intro B e h; simp [create_missing_types] at h
  | cons t rest ih =>
    intro B e h
    simp only [create_missing_types, List.mem_append, List.mem_cons] at h
    rcases h with h0 | h0 | h0
    · rcases resolve_relation_ids_events_warn mp t.name t.relations e h0 with ⟨rn, hrn⟩
      exact Or.inr ⟨t.name, rn, hrn⟩
    · exact Or.inl ⟨t.name, _, h0⟩
    · exact ih _ e h0

lemma create_missing_types_postType_mem (space_id : String)
    (mp : List (String × String)) (l : List TypeDefinition) :
    ∀ (B : Backend) (t : TypeDefinition), t ∈ l →
      FleetEvent.postType space_id t.name
          (resolve_relation_ids mp t.name t.relations).1 ∈
        (create_missing_types space_id mp B l).2.2 := by
  induction l with
  | nil => intro B t h; simp at h
  | cons t0 rest ih =>
    intro B t h
    rcases List.mem_cons.1 h with h0 | h0
    · subst h0
      simp [create_missing_types]
    · simp only [create_missing_types, List.mem_append, List.mem_cons]
      exact Or.inr (Or.inr (ih _ t h0))

lemma create_missing_types_warn_mem (space_id : String)
    (mp : List (String × String)) (l : List TypeDefinition) :
    ∀ (B : Backend) (t : TypeDefinition) (e : FleetEvent), t ∈ l →
      e ∈ (resolve_relation_ids mp t.name t.relations).2 →
      e ∈ (create_missing_types space_id mp B l).2.2 := by
  induction l with
  | nil => intro B t e h; simp at h
  | cons t0 rest ih =>
    intro B t e h hw
    rcases List.mem_cons.1 h with h0 | h0
    · subst h0
      simp only [create_missing_types, List.mem_append, List.mem_cons]
      exact Or.inl hw
    · simp only [create_missing_types, List.mem_append, List.mem_cons]
      exact Or.inr (Or.inr (ih _ t e h0 hw))

/-! ## Lemmas about the retry loop -/

lemma retry_loop_invariant (oracle : Nat → AttemptOutcome) :
    ∀ (fuel k : Nat), 1 ≤ k → k ≤ 3 → 3 ≤ k + fuel →
      k ≤ (retry_loop oracle fuel k).2.1 ∧
      (retry_loop oracle fuel k).2.1 ≤ 3 ∧
      (∀ m, k ≤ m → m < (retry_loop oracle fuel k).2.1 →
        oracle m = AttemptOutcome.connectError ∨
          oracle m = AttemptOutcome.timeoutException) ∧
      (retry_loop oracle fuel k).1 =
        attempt_once (oracle (retry_loop oracle fuel k).2.1) ∧
      (∀ e, (retry_loop oracle fuel k).1 = Except.error e → is_retryable e →
        (retry_loop oracle fuel k).2.1 = 3) ∧
      (retry_loop oracle fuel k).2.2 =
        (List.range' k ((retry_loop oracle fuel k).2.1 - k)).map fleet_wait := by
  intro fuel
  induction fuel with
  | zero =>
    intro k h1 h3 hk
    have hkk : k = 3 := by omega
    have h0 : retry_loop oracle 0 k = (attempt_once (oracle k), k, []) := rfl
    rw [h0]
    refine ⟨le_refl _, h3, ?_, rfl, ?_, by simp⟩
    · intro m hm hm2
      have hm3 : m < k := hm2
      omega
    · intro e _ _
      exact hkk
  | succ fuel ih =>
    intro k h1 h3 hk
    rcases ha : attempt_once (oracle k) with e | s
    · by_cases hret : is_retryable e ∧ k < 3
      · have hrec := ih (k + 1) (by omega) (by omega) (by omega)
        have hloop : retry_loop oracle (fuel + 1) k =
            ((retry_loop oracle fuel (k + 1)).1,
              (retry_loop oracle fuel (k + 1)).2.1,
              fleet_wait k :: (retry_loop oracle fuel (k + 1)).2.2) := by
          simp only [retry_loop, ha, if_pos hret]
        rw [hloop]
        obtain ⟨g1, g2, g3, g4, g5, g6⟩ := hrec
        refine ⟨by dsimp only; omega, by dsimp only; omega, ?_, g4,
          fun e he hre => g5 e he hre, ?_⟩
        · intro m hm hm2
          dsimp only at hm2
          by_cases hmk : m = k
          · subst hmk
            rcases e with s0 | _ | _ | _
            · exact absurd hret.1 (by simp [is_retryable])
            · left
              rcases ho : oracle m with s1 | _ | _ | _ <;> rw [ho] at ha <;>
                simp only [attempt_once] at ha
              all_goals first
                | rfl
                | exact ho
                | (split at ha <;> simp_all)
                | simp_all
            · right
              rcases ho : oracle m with s1 | _ | _ | _ <;> rw [ho] at ha <;>
                simp only [attempt_once] at ha
              all_goals first
                | rfl
                | exact ho
                | (split at ha <;> simp_all)
                | simp_all
            · exact absurd hret.1 (by simp [is_retryable])
          · exact g3 m (by omega) hm2
        · dsimp only
          have hn : (retry_loop oracle fuel (k + 1)).2.1 - k =
              ((retry_loop oracle fuel (k + 1)).2.1 - (k + 1)) + 1 := by omega
          rw [g6, hn, List.range'_succ, List.map_cons]
      · have hloop : retry_loop oracle (fuel + 1) k =
            (Except.error e, k, []) := by
          simp only [retry_loop, ha, if_neg hret]
        rw [hloop]
        refine ⟨le_refl _, h3, ?_, ha.symm, ?_, by simp⟩
        · intro m hm hm2
          have hm3 : m < k := hm2
          omega
        · intro e0 he0 hre
          injection he0 with he1
          have hre2 : is_retryable e := by rw [he1]; exact hre
          have hk3 : ¬ k < 3 := fun hlt => hret ⟨hre2, hlt⟩
          show k = 3
          omega
    · have hloop : retry_loop oracle (fuel + 1) k = (Except.ok s, k, []) := by
        simp only [retry_loop, ha]
      rw [hloop]
      refine ⟨le_refl _, h3, ?_, ha.symm, ?_, by simp⟩
      · intro m hm hm2
        have hm3 : m < k := hm2
        omega
      · intro e0 he0 _
        simp at he0

/-! ## Lemmas about the backoff schedule and health check -/

lemma fleet_wait_eq (k : Nat) :
    fleet_wait k = min ((1 / 2 : ℚ) * 2 ^ (k - 1)) 10 := by
  unfold fleet_wait wait_exponential_tenacity
  have h1 : (1 : ℚ) ≤ 2 ^ (k - 1) := one_le_pow₀ (by norm_num)
  have h2 : (1 / 2 : ℚ) ≤ (1 / 2) * 2 ^ (k - 1) := by nlinarith
  have h5 : max (0 : ℚ) (1 / 2) ≤ min ((1 / 2) * 2 ^ (k - 1)) 10 := by
    rw [max_le_iff]
    exact ⟨le_min (by positivity) (by norm_num), le_min h2 (by norm_num)⟩
  exact max_eq_right h5

lemma health_check_lookup (clients : List String)
    (outcome : String → HealthOutcome) :
    ∀ n ∈ clients, List.lookup n (health_check clients none outcome) =
      some (health_entry (outcome n)) := by
  induction clients with
  | nil => intro n hmem; simp at hmem
  | cons c rest ih =>
    intro n h
    by_cases hn : n = c
    · subst hn
      simp [health_check, List.lookup]
    · have hbeq : (n == c) = false := by simp [beq_eq_false_iff_ne, hn]
      rcases List.mem_cons.1 h with h0 | h0
      · exact absurd h0 hn
      · simp only [health_check, List.map_cons, List.lookup, hbeq]
        simpa [health_check] using ih n h0

/-! ## Projection lemmas for ensure_ontology -/

lemma find_matching_relation_mem {name : String} {l : List AnyTypeRelation}
    {r : AnyTypeRelation} (h : find_matching_relation name l = some r) :
    r ∈ l :=
  List.mem_of_find?_eq_some h

lemma find_matching_relation_pred {name : String} {l : List AnyTypeRelation}
    {r : AnyTypeRelation} (h : find_matching_relation name l = some r) :
    FUZZY_MATCH_THRESHOLD ≤ fuzzy_match name r.name := by
  unfold find_matching_relation at h
  have h2 := List.find?_some h
  simpa using h2

lemma find_matching_type_mem {name : String} {l : List AnyTypeType}
    {t : AnyTypeType} (h : find_matching_type name l = some t) : t ∈ l :=
  List.mem_of_find?_eq_some h

lemma find_matching_type_pred {name : String} {l : List AnyTypeType}
    {t : AnyTypeType} (h : find_matching_type name l = some t) :
    FUZZY_MATCH_THRESHOLD ≤ fuzzy_match name t.name := by
  unfold find_matching_type at h
  have h2 := List.find?_some h
  simpa using h2

lemma ensure_false_created_relations (M : OntologyManifest) (sid : String)
    (B : Backend) :
    (ensure_ontology M sid false B).output.created_relations =
      (missing_relation_defs M.relations B.relations).map (fun d => d.name) := by
  simp [ensure_ontology, create_missing_relations_created_names]

lemma ensure_false_created_types (M : OntologyManifest) (sid : String)
    (B : Backend) :
    (ensure_ontology M sid false B).output.created_types =
      (missing_type_defs M.types B.types).map (fun t => t.name) := by
  simp [ensure_ontology, create_missing_types_created_names]

lemma ensure_false_skipped_relations (M : OntologyManifest) (sid : String)
    (B : Backend) :
    (ensure_ontology M sid false B).output.skipped_relations =
      skipped_relation_names M.relations B.relations := by
  simp [ensure_ontology]

lemma ensure_false_skipped_types (M : OntologyManifest) (sid : String)
    (B : Backend) :
    (ensure_ontology M sid false B).output.skipped_types =
      skipped_type_names M.types B.types := by
  simp [ensure_ontology]

lemma ensure_false_diff (M : OntologyManifest) (sid : String) (B : Backend) :
    (ensure_ontology M sid false B).output.diff =
      { missing_relations :=
          (missing_relation_defs M.relations B.relations).map (fun d => d.name),
        missing_types :=
          (missing_type_defs M.types B.types).map (fun t => t.name),
        existing_relations := skipped_relation_names M.relations B.relations,
        existing_types := skipped_type_names M.types B.types } := by
  simp [ensure_ontology]

lemma ensure_false_backend_relations (M : OntologyManifest) (sid : String)
    (B : Backend) :
    (ensure_ontology M sid false B).backend.relations =
      (create_missing_relations sid B
        (relation_map_after_diff M.relations B.relations)
        (missing_relation_defs M.relations B.relations)).1.relations := by
  simp [ensure_ontology, create_missing_types_rels_eq]

lemma ensure_false_backend_types (M : OntologyManifest) (sid : String)
    (B : Backend) :
    (ensure_ontology M sid false B).backend.types =
      (create_missing_types sid (final_relation_map M sid B)
        (create_missing_relations sid B
          (relation_map_after_diff M.relations B.relations)
          (missing_relation_defs M.relations B.relations)).1
        (missing_type_defs M.types B.types)).1.types := by
  simp [ensure_ontology, final_relation_map]

lemma ensure_false_events (M : OntologyManifest) (sid : String) (B : Backend) :
    (ensure_ontology M sid false B).events =
      FleetEvent.getRelations sid :: FleetEvent.getTypes sid ::
        ((create_missing_relations sid B
            (relation_map_after_diff M.relations B.relations)
            (missing_relation_defs M.relations B.relations)).2.2.2 ++
          (create_missing_types sid (final_relation_map M sid B)
            (create_missing_relations sid B
              (relation_map_after_diff M.relations B.relations)
              (missing_relation_defs M.relations B.relations)).1
            (missing_type_defs M.types B.types)).2.2) := by
  simp [ensure_ontology, final_relation_map]

lemma ensure_true_output (M : OntologyManifest) (sid : String) (B : Backend) :
    (ensure_ontology M sid true B).output.created_relations = [] ∧
    (ensure_ontology M sid true B).output.created_types = [] ∧
    (ensure_ontology M sid true B).output.diff =
      { missing_relations :=
          (missing_relation_defs M.relations B.relations).map (fun d => d.name),
        missing_types :=
          (missing_type_defs M.types B.types).map (fun t => t.name),
        existing_relations := skipped_relation_names M.relations B.relations,
        existing_types := skipped_type_names M.types B.types } ∧
    (ensure_ontology M sid true B).backend = B ∧
    (ensure_ontology M sid true B).events =
      [FleetEvent.getRelations sid, FleetEvent.getTypes sid] := by
  refine ⟨?_, ?_, ?_, ?_, ?_⟩ <;> simp [ensure_ontology]

/-! ## Claim theorems -/

lemma ensure_false_rel_match (manifest : OntologyManifest) (space_id : String)
    (B : Backend) :
    ∀ d ∈ manifest.relations,
      (find_matching_relation d.name
        (ensure_ontology manifest space_id false B).backend.relations).isSome = true := by
  intro d hd
  rw [find_matching_relation_isSome_iff]
  rcases hopt : find_matching_relation d.name B.relations with _ | m
  · have hdm : d ∈ missing_relation_defs manifest.relations B.relations := by
      simp [missing_relation_defs, List.mem_filter, hd, hopt]
    obtain ⟨r, hr, hrname⟩ := create_missing_relations_rel_new space_id _ B
      (relation_map_after_diff manifest.relations B.relations) d hdm
    refine ⟨r, ?_, ?_⟩
    · rw [ensure_false_backend_relations]
      exact hr
    · rw [hrname, fuzzy_match_self]
      exact threshold_le_one
  · refine ⟨m, ?_, find_matching_relation_pred hopt⟩
    rw [ensure_false_backend_relations]
    exact create_missing_relations_rel_mono space_id _ B _ m
      (find_matching_relation_mem hopt)

lemma ensure_false_type_match (manifest : OntologyManifest) (space_id : String)
    (B : Backend) :
    ∀ t ∈ manifest.types,
      (find_matching_type t.name
        (ensure_ontology manifest space_id false B).backend.types).isSome = true := by
  intro t ht
  rw [find_matching_type_isSome_iff]
  rcases hopt : find_matching_type t.name B.types with _ | m
  · have htm : t ∈ missing_type_defs manifest.types B.types := by
      simp [missing_type_defs, List.mem_filter, ht, hopt]
    obtain ⟨r, hr, hrname⟩ := create_missing_types_new space_id
      (final_relation_map manifest space_id B) _ _ t htm
    refine ⟨r, ?_, ?_⟩
    · rw [ensure_false_backend_types]
      exact hr
    · rw [hrname, fuzzy_match_self]
      exact threshold_le_one
  · refine ⟨m, ?_, find_matching_type_pred hopt⟩
    rw [ensure_false_backend_types]
    refine create_missing_types_types_mono space_id _ _ _ m ?_
    rw [create_missing_relations_types_eq]
    exact find_matching_type_mem hopt

/-- C1: reconciliation is idempotent.  For every manifest, space and backend
snapshot, running ensure_ontology with dry_run = false and then running it
again against the backend state the first run leaves behind yields, on the
second run, empty created_relations and created_types, an empty missing side
of the diff, and every manifest relation and type listed as existing
(skipped), in manifest order. -/
theorem ensure_ontology_idempotent (manifest : OntologyManifest)
    (space_id : String) (B : Backend) :
    (ensure_ontology manifest space_id false
        (ensure_ontology manifest space_id false B).backend).output.created_relations = [] ∧
    (ensure_ontology manifest space_id false
        (ensure_ontology manifest space_id false B).backend).output.created_types = [] ∧
    (ensure_ontology manifest space_id false
        (ensure_ontology manifest space_id false B).backend).output.diff.missing_relations = [] ∧
    (ensure_ontology manifest space_id false
        (ensure_ontology manifest space_id false B).backend).output.diff.missing_types = [] ∧
    (ensure_ontology manifest space_id false
        (ensure_ontology manifest space_id false B).backend).output.diff.existing_relations =
      manifest.relations.map (fun d => d.name) ∧
    (ensure_ontology manifest space_id false
        (ensure_ontology manifest space_id false B).backend).output.diff.existing_types =
      manifest.types.map (fun t => t.name) ∧
    (ensure_ontology manifest space_id false
        (ensure_ontology manifest space_id false B).backend).output.skipped_relations =
      manifest.relations.map (fun d => d.name) ∧
    (ensure_ontology manifest space_id false
        (ensure_ontology manifest space_id false B).backend).output.skipped_types =
      manifest.types.map (fun t => t.name) := by
  have hA := ensure_false_rel_match manifest space_id B
  have hB := ensure_false_type_match manifest space_id B
  have hmr : missing_relation_defs manifest.relations
      (ensure_ontology manifest space_id false B).backend.relations = [] := by
    unfold missing_relation_defs
    rw [List.filter_eq_nil_iff]
    intro d hd hcontra
    rw [Option.isNone_iff_eq_none] at hcontra
    have h2 := hA d hd
    rw [hcontra] at h2
    simp at h2
  have hmt : missing_type_defs manifest.types
      (ensure_ontology manifest space_id false B).backend.types = [] := by
    unfold missing_type_defs
    rw [List.filter_eq_nil_iff]
    intro t ht hcontra
    rw [Option.isNone_iff_eq_none] at hcontra
    have h2 := hB t ht
    rw [hcontra] at h2
    simp at h2
  have hsr : skipped_relation_names manifest.relations
      (ensure_ontology manifest space_id false B).backend.relations =
        manifest.relations.map (fun d => d.name) := by
    unfold skipped_relation_names
    rw [List.filter_eq_self.2 (fun d hd => hA d hd)]
  have hst : skipped_type_names manifest.types
      (ensure_ontology manifest space_id false B).backend.types =
        manifest.types.map (fun t => t.name) := by
    unfold skipped_type_names
    rw [List.filter_eq_self.2 (fun t ht => hB t ht)]
  refine ⟨?_, ?_, ?_, ?_, ?_, ?_, ?_, ?_⟩
  · rw [ensure_false_created_relations, hmr]
    rfl
  · rw [ensure_false_created_types, hmt]
    rfl
  · rw [ensure_false_diff]
    rw [hmr]
    rfl
  · rw [ensure_false_diff]
    rw [hmt]
    rfl
  · rw [ensure_false_diff]
    exact hsr
  · rw [ensure_false_diff]
    exact hst
  · rw [ensure_false_skipped_relations]
    exact hsr
  · rw [ensure_false_skipped_types]
    exact hst

/-- C2: dry-run purity.  With dry_run = true, ensure_ontology issues no
create (POST) request, returns empty created_relations and created_types,
and the missing side of the diff it reports is exactly what an immediately
following real (dry_run = false) apply against the same snapshot would
create. -/
theorem ensure_ontology_dry_run_pure (manifest : OntologyManifest)
    (space_id : String) (B : Backend) :
    (ensure_ontology manifest space_id true B).output.created_relations = [] ∧
    (ensure_ontology manifest space_id true B).output.created_types = [] ∧
    (∀ e ∈ (ensure_ontology manifest space_id true B).events,
      e.isCreate = false) ∧
    (ensure_ontology manifest space_id true B).backend = B ∧
    (ensure_ontology manifest space_id true B).output.diff.missing_relations =
      (ensure_ontology manifest space_id false B).output.created_relations ∧
    (ensure_ontology manifest space_id true B).output.diff.missing_types =
      (ensure_ontology manifest space_id false B).output.created_types := by
  obtain ⟨h1, h2, h3, h4, h5⟩ := ensure_true_output manifest space_id B
  refine ⟨h1, h2, ?_, h4, ?_, ?_⟩
  · intro e he
    rw [h5] at he
    simp only [List.mem_cons, List.not_mem_nil, or_false] at he
    rcases he with he | he <;> subst he <;> rfl
  · rw [h3, ensure_false_created_relations]
  · rw [h3, ensure_false_created_types]

/-- C3: dependency ordering.  In the event trace of one non-dry
reconciliation run, every type-creation request comes strictly after every
relation-creation request: a postType at position i and a postRelation at
position j force j < i. -/
theorem ensure_ontology_relations_before_types (manifest : OntologyManifest)
    (space_id : String) (B : Backend) (i j : Nat) (e e2 : FleetEvent)
    (hi : (ensure_ontology manifest space_id false B).events.get? i = some e)
    (hj : (ensure_ontology manifest space_id false B).events.get? j = some e2)
    (htype : e.isPostType = true) (hrel : e2.isPostRelation = true) :
    j < i := by
  rw [ensure_false_events] at hi hj
  set relEvents := (create_missing_relations space_id B
    (relation_map_after_diff manifest.relations B.relations)
    (missing_relation_defs manifest.relations B.relations)).2.2.2 with hre
  set typeEvents := (create_missing_types space_id
    (final_relation_map manifest space_id B)
    (create_missing_relations space_id B
      (relation_map_after_diff manifest.relations B.relations)
      (missing_relation_defs manifest.relations B.relations)).1
    (missing_type_defs manifest.types B.types)).2.2 with hte
  have hhead : FleetEvent.getRelations space_id :: FleetEvent.getTypes space_id ::
      (relEvents ++ typeEvents) =
      (FleetEvent.getRelations space_id :: FleetEvent.getTypes space_id ::
        relEvents) ++ typeEvents := by
    simp
  rw [hhead] at hi hj
  set front := FleetEvent.getRelations space_id :: FleetEvent.getTypes space_id ::
    relEvents with hfront
  have hfront_no_type : ∀ x ∈ front, x.isPostType = false := by
    intro x hx
    rw [hfront] at hx
    simp only [List.mem_cons] at hx
    rcases hx with hx | hx | hx
    · subst hx; rfl
    · subst hx; rfl
    · rw [hre] at hx
      obtain ⟨d, hd⟩ := create_missing_relations_events space_id _ B _ x hx
      rw [hd]
      rfl
  have hback_no_rel : ∀ x ∈ typeEvents, x.isPostRelation = false := by
    intro x hx
    rw [hte] at hx
    rcases create_missing_types_events space_id _ _ _ x hx with ⟨t, ids, hx2⟩ | ⟨t, rn, hx2⟩
    · rw [hx2]; rfl
    · rw [hx2]; rfl
  have hi_big : front.length ≤ i := by
    by_contra hlt
    push_neg at hlt
    rw [List.get?_append hlt] at hi
    have hmem : e ∈ front := List.get?_mem hi
    rw [hfront_no_type e hmem] at htype
    exact Bool.false_ne_true htype
  have hj_small : j < front.length := by
    by_contra hge
    push_neg at hge
    rw [List.get?_append_right hge] at hj
    have hmem : e2 ∈ typeEvents := List.get?_mem hj
    rw [hback_no_rel e2 hmem] at hrel
    exact Bool.false_ne_true hrel
  omega

/-- C4: first-above-threshold matching.  The matcher returns none exactly
when no existing relation reaches the 0.85 similarity threshold against the
candidate, and otherwise returns the first element of the existing list, in
its given order, that reaches it; in particular, on the existing list
[Statuz, Status] with candidate Status, if both names meet the threshold the
match is the first element (the one named Statuz), not the exact match. -/
theorem find_matching_relation_first_above_threshold (name : String)
    (l : List AnyTypeRelation) :
    (find_matching_relation name l = none ↔
      ∀ rel ∈ l, fuzzy_match name rel.name < FUZZY_MATCH_THRESHOLD) ∧
    (∀ r, find_matching_relation name l = some r →
      FUZZY_MATCH_THRESHOLD ≤ fuzzy_match name r.name ∧
      ∃ i : Nat, l.get? i = some r ∧
        ∀ j, j < i → ∀ y, l.get? j = some y →
          fuzzy_match name y.name < FUZZY_MATCH_THRESHOLD) ∧
    (∀ r1 r2 : AnyTypeRelation, r1.name = "Statuz" → r2.name = "Status" →
      FUZZY_MATCH_THRESHOLD ≤ fuzzy_match "Status" r1.name →
      FUZZY_MATCH_THRESHOLD ≤ fuzzy_match "Status" r2.name →
      find_matching_relation "Status" [r1, r2] = some r1) := by
  refine ⟨?_, ?_, ?_⟩
  · unfold find_matching_relation
    rw [List.find?_eq_none]
    constructor
    · intro h rel hrel
      have h2 := h rel hrel
      rw [decide_eq_true_eq] at h2
      exact lt_of_not_le h2
    · intro h rel hrel
      rw [decide_eq_true_eq]
      exact not_le_of_lt (h rel hrel)
  · intro r
    induction l with
    | nil => intro h; simp [find_matching_relation] at h
    | cons x xs ih =>
      intro h
      by_cases hx : FUZZY_MATCH_THRESHOLD ≤ fuzzy_match name x.name
      · have hfind : find_matching_relation name (x :: xs) = some x := by
          unfold find_matching_relation
          rw [List.find?_cons_of_pos]
          exact decide_eq_true hx
        rw [hfind] at h
        injection h with h2
        subst h2
        refine ⟨hx, 0, rfl, ?_⟩
        intro j hj
        omega
      · have hfind : find_matching_relation name (x :: xs) =
            find_matching_relation name xs := by
          unfold find_matching_relation
          rw [List.find?_cons_of_neg]
          exact fun hc => hx (of_decide_eq_true hc)
        rw [hfind] at h
        obtain ⟨hr, i, hget, hfirst⟩ := ih h
        refine ⟨hr, i + 1, hget, ?_⟩
        intro j hj y hy
        cases j with
        | zero =>
          have hxy : y = x := by
            have := hy
            simp at this
            exact this.symm
          subst hxy
          exact lt_of_not_le hx
        | succ j2 =>
          exact hfirst j2 (by omega) y hy
  · intro r1 r2 h1 h2 hth1 hth2
    unfold find_matching_relation
    rw [List.find?_cons_of_pos]
    exact decide_eq_true hth1

lemma final_relation_map_values_ne_empty (manifest : OntologyManifest)
    (space_id : String) (B : Backend)
    (hid : ∀ r ∈ B.relations, r.id ≠ "") :
    ∀ kv ∈ final_relation_map manifest space_id B, kv.2 ≠ "" := by
  intro kv hkv
  rcases create_missing_relations_map_mem space_id _ B _ kv hkv with
    h0 | ⟨_, _, _, hne⟩
  · rcases relation_map_after_diff_mem B.relations manifest.relations kv h0 with
      ⟨d, hd, m, hm, hkveq⟩
    rw [hkveq]
    exact hid m (find_matching_relation_mem hm)
  · exact hne

lemma final_relation_map_keys (manifest : OntologyManifest)
    (space_id : String) (B : Backend) :
    ∀ kv ∈ final_relation_map manifest space_id B,
      kv.1 ∈ manifest.relations.map (fun d => py_lower d.name) := by
  intro kv hkv
  rcases create_missing_relations_map_mem space_id _ B _ kv hkv with
    h0 | ⟨d, hd, hkey, _⟩
  · rcases relation_map_after_diff_mem B.relations manifest.relations kv h0 with
      ⟨d, hd, m, _, hkveq⟩
    rw [hkveq]
    exact List.mem_map_of_mem _ hd
  · rw [hkey]
    exact List.mem_map_of_mem _ (List.mem_of_mem_filter hd)

/-- C9: unresolved-reference tolerance.  A missing TypeDefinition that
references a relation name absent (case-folded) from the manifest's declared
relations and from the snapshot is still created: its name appears in
created_types, the reference resolves to nothing, a warning event is
recorded, and the type-creation request carries exactly the ids of the
references that did resolve. -/
theorem ensure_ontology_unresolved_reference_tolerated
    (manifest : OntologyManifest) (space_id : String) (B : Backend)
    (t : TypeDefinition) (rn : String)
    (ht : t ∈ missing_type_defs manifest.types B.types)
    (hrn : rn ∈ t.relations)
    (hnotman : py_lower rn ∉ manifest.relations.map (fun d => py_lower d.name))
    (hnotsnap : py_lower rn ∉ B.relations.map (fun r => py_lower r.name)) :
    t.name ∈ (ensure_ontology manifest space_id false B).output.created_types ∧
    truthy_lookup (final_relation_map manifest space_id B) rn = none ∧
    FleetEvent.warnRelationNotFound t.name rn ∈
      (ensure_ontology manifest space_id false B).events ∧
    FleetEvent.postType space_id t.name
        (t.relations.filterMap
          (truthy_lookup (final_relation_map manifest space_id B))) ∈
      (ensure_ontology manifest space_id false B).events := by
  have hnone : truthy_lookup (final_relation_map manifest space_id B) rn = none := by
    have hlook : List.lookup (py_lower rn) (final_relation_map manifest space_id B) =
        none := by
      refine lookup_eq_none_of_keys _ (py_lower rn) (fun kv hkv hcontra => ?_)
      exact hnotman (hcontra ▸ final_relation_map_keys manifest space_id B kv hkv)
    unfold truthy_lookup
    rw [hlook]
  refine ⟨?_, hnone, ?_, ?_⟩
  · rw [ensure_false_created_types]
    exact List.mem_map_of_mem _ ht
  · have hw := resolve_relation_ids_warn (final_relation_map manifest space_id B)
      t.name t.relations rn hrn hnone
    have hmem := create_missing_types_warn_mem space_id
      (final_relation_map manifest space_id B) _
      (create_missing_relations space_id B
        (relation_map_after_diff manifest.relations B.relations)
        (missing_relation_defs manifest.relations B.relations)).1
      t _ ht hw
    rw [ensure_false_events]
    simp only [List.mem_cons, List.mem_append]
    exact Or.inr (Or.inr (Or.inr hmem))
  · have hpost := create_missing_types_postType_mem space_id
      (final_relation_map manifest space_id B)
      (missing_type_defs manifest.types B.types)
      (create_missing_relations space_id B
        (relation_map_after_diff manifest.relations B.relations)
        (missing_relation_defs manifest.relations B.relations)).1
      t ht
    rw [resolve_relation_ids_fst] at hpost
    rw [ensure_false_events]
    simp only [List.mem_cons, List.mem_append]
    exact Or.inr (Or.inr (Or.inr hpost))

/-- C10: exact-only reference resolution.  During the type-creation phase a
reference resolves if and only if its case-folded name equals the case-folded
declared name of some manifest relation (snapshots with well-formed, nonempty
backend ids); in particular a reference naming a relation that exists only in
the backend snapshot, or that merely fuzzy-matches a declared name, never
resolves and is omitted. -/
theorem ensure_ontology_reference_resolution_exact
    (manifest : OntologyManifest) (space_id : String) (B : Backend)
    (rn : String) (hid : ∀ r ∈ B.relations, r.id ≠ "") :
    (truthy_lookup (final_relation_map manifest space_id B) rn).isSome = true ↔
      py_lower rn ∈ manifest.relations.map (fun d => py_lower d.name) := by
  constructor
  · intro h
    unfold truthy_lookup at h
    rcases hl : List.lookup (py_lower rn) (final_relation_map manifest space_id B)
      with _ | rid
    · rw [hl] at h
      simp at h
    · have hmem := lookup_mem _ _ _ hl
      have := final_relation_map_keys manifest space_id B _ hmem
      exact this
  · intro h
    rcases List.mem_map.1 h with ⟨d, hd, hkey⟩
    have hentry : ∃ v, (py_lower d.name, v) ∈ final_relation_map manifest space_id B := by
      rcases hopt : find_matching_relation d.name B.relations with _ | m
      · have hdm : d ∈ missing_relation_defs manifest.relations B.relations := by
          simp [missing_relation_defs, List.mem_filter, hd, hopt]
        obtain ⟨v, hv, _⟩ := create_missing_relations_map_key space_id _ B
          (relation_map_after_diff manifest.relations B.relations) d hdm
        exact ⟨v, hv⟩
      · refine ⟨m.id, ?_⟩
        exact create_missing_relations_map_mono space_id _ B _ _
          (relation_map_after_diff_key B.relations manifest.relations d m hd hopt)
    obtain ⟨v, hv⟩ := hentry
    obtain ⟨w, hw⟩ := lookup_isSome_of_mem _ _ _ (hkey ▸ hv)
    have hwne := final_relation_map_values_ne_empty manifest space_id B hid _
      (lookup_mem _ _ _ hw)
    unfold truthy_lookup
    rw [hw]
    simp [hwne]

/-- C5: retry classification and budget.  FleetRouter.request makes at most
three attempts; every attempt before the last failed with a
connection-establishment error or a timeout (so nothing else, in particular
no received HTTP response, is ever retried); the returned value is exactly
what the final attempt produced, so a received response with a client or
server error status surfaces immediately as an HTTPStatusError; and when the
outcome is a retryable error the budget was exhausted at attempt 3, the last
attempt's own error being re-raised. -/
theorem fleet_request_retry_policy (oracle : Nat → AttemptOutcome) :
    (fleet_request oracle).2.1 ≤ 3 ∧
    (∀ k, 1 ≤ k → k < (fleet_request oracle).2.1 →
      oracle k = AttemptOutcome.connectError ∨
        oracle k = AttemptOutcome.timeoutException) ∧
    ((fleet_request oracle).1 =
      attempt_once (oracle (fleet_request oracle).2.1)) ∧
    (∀ s, oracle (fleet_request oracle).2.1 = AttemptOutcome.response s →
      400 ≤ s →
      (fleet_request oracle).1 =
        Except.error (RequestError.httpStatusError s)) ∧
    (∀ e, (fleet_request oracle).1 = Except.error e → is_retryable e →
      (fleet_request oracle).2.1 = 3) := by
  unfold fleet_request
  obtain ⟨g1, g2, g3, g4, g5, g6⟩ :=
    retry_loop_invariant oracle 3 1 (by norm_num) (by norm_num) (by norm_num)
  refine ⟨g2, fun k hk1 hk2 => g3 k hk1 hk2, g4, ?_, g5⟩
  intro s hs h400
  rw [g4, hs]
  simp only [attempt_once]
  rw [if_neg (by omega)]

/-- C6: backoff schedule.  The wait before the second attempt is half a
second; the wait before attempt k+1 is min(0.5 * 2^(k-1), 10) seconds for
every k at least 1, so it doubles on each subsequent attempt and every wait
is capped at 10 seconds; and in every run the wait recorded before attempt
k+1 is exactly that scheduled wait. -/
theorem fleet_request_backoff_schedule :
    fleet_wait 1 = 1 / 2 ∧
    (∀ k : Nat, 1 ≤ k →
      fleet_wait k = min ((1 / 2 : ℚ) * 2 ^ (k - 1)) 10) ∧
    (∀ k : Nat, 1 ≤ k → fleet_wait (k + 1) = min (2 * fleet_wait k) 10) ∧
    (∀ k : Nat, fleet_wait k ≤ 10) ∧
    (∀ (oracle : Nat → AttemptOutcome) (k : Nat), 1 ≤ k →
      k < (fleet_request oracle).2.1 →
      (fleet_request oracle).2.2.get? (k - 1) = some (fleet_wait k)) := by
  refine ⟨?_, fun k _ => fleet_wait_eq k, ?_, ?_, ?_⟩
  · rw [fleet_wait_eq]
    norm_num
  · intro k hk
    rw [fleet_wait_eq, fleet_wait_eq]
    have hp : (2 : ℚ) ^ (k + 1 - 1) = 2 * 2 ^ (k - 1) := by
      have he : k + 1 - 1 = (k - 1) + 1 := by omega
      rw [he, pow_succ]
      ring
    by_cases hc : (1 / 2 : ℚ) * 2 ^ (k - 1) ≤ 10
    · rw [min_eq_left hc]
      congr 1
      rw [hp]
      ring
    · push_neg at hc
      rw [min_eq_right (le_of_lt hc)]
      have h1 : (10 : ℚ) ≤ (1 / 2) * 2 ^ (k + 1 - 1) := by
        rw [hp]
        nlinarith
      rw [min_eq_right h1]
      norm_num
  · intro k
    rw [fleet_wait_eq]
    exact min_le_right _ _
  · intro oracle k hk1 hk2
    unfold fleet_request at hk2 ⊢
    obtain ⟨g1, g2, g3, g4, g5, g6⟩ :=
      retry_loop_invariant oracle 3 1 (by norm_num) (by norm_num) (by norm_num)
    rw [g6, List.get?_eq_getElem?, List.getElem?_map, List.getElem?_range' 1 1
      (show k - 1 < (retry_loop oracle 3 1).2.1 - 1 by omega)]
    simp only [Option.map_some']
    have he : 1 + 1 * (k - 1) = k := by omega
    rw [he]

lemma lookup_map_entry_congr (clients : List String)
    (f g : String → HealthEntry) (q : String) (hq : f q = g q) :
    List.lookup q (clients.map (fun n => (n, f n))) =
      List.lookup q (clients.map (fun n => (n, g n))) := by
  induction clients with
  | nil => rfl
  | cons c rest ih =>
    by_cases hc : q = c
    · subst hc
      simp [List.lookup, hq]
    · have hbeq : (q == c) = false := by simp [beq_eq_false_iff_ne, hc]
      simp only [List.map_cons, List.lookup, hbeq]
      exact ih

/-- C7: health-check isolation.  With no profile argument, health_check
reports one entry per configured profile, each computed only from that
profile's own GET outcome (healthy with the response, or unhealthy with the
error — the operation itself always returns, an individual failure raises
nothing); a profile's reported entry never changes when another profile's
outcome changes; and with a profile argument only that profile (lowercased)
is checked. -/
theorem health_check_isolated (clients : List String)
    (outcome : String → HealthOutcome) :
    health_check clients none outcome =
      clients.map (fun n => (n, health_entry (outcome n))) ∧
    (∀ n ∈ clients, List.lookup n (health_check clients none outcome) =
      some (health_entry (outcome n))) ∧
    (∀ (outcome2 : String → HealthOutcome) (q : String),
      outcome q = outcome2 q →
      List.lookup q (health_check clients none outcome) =
        List.lookup q (health_check clients none outcome2)) ∧
    (∀ o : HealthOutcome,
      (∃ body, health_entry o = HealthEntry.healthy body) ∨
      (∃ msg, health_entry o = HealthEntry.unhealthy msg)) ∧
    (∀ p : String, health_check clients (some p) outcome =
      [(py_lower p, health_entry (outcome (py_lower p)))]) := by
  refine ⟨rfl, health_check_lookup clients outcome, ?_, ?_, fun p => rfl⟩
  · intro outcome2 q hq
    exact lookup_map_entry_congr clients _ _ q (by rw [hq])
  · intro o
    rcases o with content | msg
    · rcases content with _ | body
      · exact Or.inl ⟨"\x7b\x7d", rfl⟩
      · exact Or.inl ⟨body, rfl⟩
    · exact Or.inr ⟨msg, rfl⟩

/-- C8: profile validation.  set_current_profile validates the lowercased
name against the fixed set (personal, work, research): an invalid name
raises ValueError and leaves the stored context untouched (no request is
modelled at all — the operation is pure validation plus a context write),
a valid name installs and returns a new context carrying the lowercased
name; and get_current_profile falls back to the configured default profile
when no context is set. -/
theorem set_current_profile_validates (name : String) (sid : Option String)
    (ctx : Option ProfileContext) (settings : SettingsModel) :
    (py_lower name ∉ valid_profiles →
      (set_current_profile name sid ctx).1 =
        Except.error ("Invalid profile: " ++ name) ∧
      (set_current_profile name sid ctx).2 = ctx) ∧
    (py_lower name ∈ valid_profiles →
      (set_current_profile name sid ctx).1 =
        Except.ok { profile_name := py_lower name, session_id := sid } ∧
      (set_current_profile name sid ctx).2 =
        some { profile_name := py_lower name, session_id := sid }) ∧
    get_current_profile none settings =
      { profile_name := settings.default_profile, session_id := none } := by
  refine ⟨?_, ?_, rfl⟩
  · intro h
    constructor <;> simp [set_current_profile, h]
  · intro h
    constructor <;> simp [set_current_profile, h]

/-! ## Witnesses at concrete inputs -/

/-- Witness for C3 at a concrete run: on the demo manifest against an empty
backend the type-creation request stands at index 3 of the trace and the
relation-creation request at index 2, and the theorem places the relation
request strictly before the type request. -/
theorem ensure_ontology_relations_before_types_witness : (2 : Nat) < 3 :=
  ensure_ontology_relations_before_types demoManifest "sp" emptyBackend 3 2
    (FleetEvent.postType "sp" "Invoice" ["rel_0"])
    (FleetEvent.postRelation "sp" demoEmailRelation)
    (by decide) (by decide) (by decide) (by decide)

/-- Witness for C9 at a concrete run: the type referencing the undeclared
relation Amount is still created. -/
theorem ensure_ontology_unresolved_reference_tolerated_witness :
    "Invoice" ∈ (ensure_ontology demoManifestUnresolved "sp" false
      emptyBackend).output.created_types :=
  (ensure_ontology_unresolved_reference_tolerated demoManifestUnresolved "sp"
    emptyBackend demoAmountType "Amount" (by decide) (by decide) (by decide)
    (by decide)).1

/-- Witness for C10 at a concrete run: on the demo manifest over the empty
snapshot the reference Email resolves exactly because Email is declared in
the manifest. -/
theorem ensure_ontology_reference_resolution_exact_witness :
    (truthy_lookup (final_relation_map demoManifest "sp" emptyBackend)
        "Email").isSome = true ↔
      py_lower "Email" ∈ demoManifest.relations.map (fun d => py_lower d.name) :=
  ensure_ontology_reference_resolution_exact demoManifest "sp" emptyBackend
    "Email" (by simp [emptyBackend])
